import Mathlib

/-!
Verification of the CNIPA patent system's validation and orchestration
layer against its specification.  The JavaScript sources are embedded
shallowly: JS objects become Lean structures (fields that JS code tests
for truthiness become `Option`s, with the empty string falsy), thrown
exceptions become `Except`, and external collaborators (AJV schema
compilation, `JSON.parse`, `Date` parsing, file reads) become function
parameters.
-/

deriving instance DecidableEq for Except

/-- A thrown JavaScript error, reduced to its `message` property. -/
structure JsErr where
  message : String
deriving Repr, DecidableEq

/-- The result object shape produced by the validator methods.  The JS
objects do not always carry all three list fields (for example the
schema-stage result has no `warnings`); an absent field is `none`. -/
structure ValidationResult where
  valid : Bool
  errors : Option (List String)
  warnings : Option (List String)
  recommendations : Option (List String)
deriving Repr, DecidableEq

namespace JsStr

/-- JS `\s` (whitespace class), restricted to the ASCII whitespace that
the inputs in this development use. -/
def isWs (c : Char) : Bool :=
  c = ' ' || c = '\t' || c = '\n' || c = '\r'

/-- Does `pat` occur as a contiguous substring of `s`?  Embeds JS
`String.prototype.includes` (over lists of characters). -/
def containsSub (s pat : String) : Bool :=
  (s.toList.tails).any (fun t => pat.toList.isPrefixOf t)

/-- ASCII lowercase of one character — the effect of JS `toLowerCase`
on the ASCII inputs this development uses. -/
def lowerAscii (c : Char) : Char :=
  if 'A' ≤ c && c ≤ 'Z' then Char.ofNat (c.toNat + 32) else c

/-- JS `toLowerCase`, as a character list. -/
def lowerList (s : String) : List Char :=
  s.toList.map lowerAscii

/-- Substring test against an already-lowered character list. -/
def containsSubL (cs : List Char) (pat : String) : Bool :=
  cs.tails.any (fun t => pat.toList.isPrefixOf t)

end JsStr

example : JsStr.containsSub ("hello world") ("lo wo") = true := by decide
example : JsStr.containsSub ("hello") ("z") = false := by decide

namespace PatentValidator

/-- One AJV validation error object, with the `params` fields the source
reads (`missingProperty`, `type`, `format`) flattened in. -/
structure AjvError where
  instancePath : String
  message : String
  keyword : String
  missingProperty : String
  paramType : String
  paramFormat : String
deriving Repr, DecidableEq

/-- `src/checks/patent-validator.js` `hasClaimReference`: tests the regex
`/claim\s+\d+/i` against the claim text — somewhere in the text, the
word `claim` (case-insensitively) followed by one or more whitespace
characters and one or more digits. -/
def hasClaimReference (claimText : String) : Bool :=
  ((JsStr.lowerList claimText).tails).any fun t =>
    match t with
    | 'c' :: 'l' :: 'a' :: 'i' :: 'm' :: rest =>
      match rest with
      | c :: _ => JsStr.isWs c && (match rest.dropWhile JsStr.isWs with
                                   | d :: _ => d.isDigit
                                   | [] => false)
      | [] => false
    | _ => false

/-- `isValidMultipleDependentReference`: the source lowercases the claim
text and tests `/claims?\s+(\d+(?:\s*,\s*\d+)*)|any\s+of\s+claims?\s+/i`.
For a boolean `test`, the left alternative matches somewhere iff
`claims?\s+\d+` does (the starred group may be empty and any match
contains that prefix), so that is what is embedded; the right
alternative is `any\s+of\s+claims?\s+`. -/
def isValidMultipleDependentReference (claimText : String) : Bool :=
  let cs := JsStr.lowerList claimText
  let leftAlt : List Char → Bool := fun t =>
    match t with
    | 'c' :: 'l' :: 'a' :: 'i' :: 'm' :: rest =>
      -- `s?` then `\s+` then `\d+`
      let rest := match rest with
                  | 's' :: r => r
                  | r => r
      match rest with
      | c :: _ => JsStr.isWs c && (match rest.dropWhile JsStr.isWs with
                                   | d :: _ => d.isDigit
                                   | [] => false)
      | [] => false
    | _ => false
  let rightAlt : List Char → Bool := fun t =>
    match t with
    | 'a' :: 'n' :: 'y' :: rest =>
      (match rest with
       | c :: _ =>
         JsStr.isWs c &&
         (match rest.dropWhile JsStr.isWs with
          | 'o' :: 'f' :: rest2 =>
            (match rest2 with
             | c2 :: _ =>
               JsStr.isWs c2 &&
               (match rest2.dropWhile JsStr.isWs with
                | 'c' :: 'l' :: 'a' :: 'i' :: 'm' :: rest3 =>
                  let rest3 := match rest3 with
                               | 's' :: r => r
                               | r => r
                  (match rest3 with
                   | c3 :: _ => JsStr.isWs c3
                   | [] => false)
                | _ => false)
             | [] => false)
          | _ => false)
       | [] => false)
    | _ => false
  cs.tails.any (fun t => leftAlt t || rightAlt t)

/-- `isValidApplicationNumber`: the regex `/^\d{14}$/` — exactly 14
digits. -/
def isValidApplicationNumber (appNumber : String) : Bool :=
  appNumber.toList.length = 14 && appNumber.toList.all Char.isDigit

/-- Full-anchored match of the IPC pattern
`/^[A-H]\d{1,2}[A-Z] \d{1,4}\/\d{2,4}$/`.  Each digit run is followed by
a non-digit in the pattern, so greedy matching coincides with taking the
maximal digit run and checking its length bounds. -/
def ipcMatches (code : String) : Bool :=
  match code.toList with
  | c :: rest =>
    ('A' ≤ c && c ≤ 'H') &&
    (let ds1 := rest.takeWhile Char.isDigit
     let r1 := rest.dropWhile Char.isDigit
     decide (1 ≤ ds1.length) && decide (ds1.length ≤ 2) &&
     (match r1 with
      | u :: ' ' :: r2 =>
        ('A' ≤ u && u ≤ 'Z') &&
        (let ds2 := r2.takeWhile Char.isDigit
         let r3 := r2.dropWhile Char.isDigit
         decide (1 ≤ ds2.length) && decide (ds2.length ≤ 4) &&
         (match r3 with
          | '/' :: r4 =>
            let ds3 := r4.takeWhile Char.isDigit
            let r5 := r4.dropWhile Char.isDigit
            decide (2 ≤ ds3.length) && decide (ds3.length ≤ 4) && r5.isEmpty
          | _ => false))
      | _ => false))
  | [] => false

end PatentValidator

example : PatentValidator.hasClaimReference ("The method of claim 2") = true := by decide
example : PatentValidator.hasClaimReference ("A method") = false := by decide
example : PatentValidator.isValidApplicationNumber ("20231123456789") = true := by decide
example : PatentValidator.isValidApplicationNumber ("123") = false := by decide
example : PatentValidator.ipcMatches ("A01B 1/00") = true := by decide
example : PatentValidator.ipcMatches ("Z01B 1/00") = false := by decide
example : PatentValidator.isValidMultipleDependentReference ("as in any of claims 1, 2") = true := by decide
example : PatentValidator.isValidMultipleDependentReference ("claims 3 and 4") = true := by decide
example : PatentValidator.isValidMultipleDependentReference ("standalone") = false := by decide

/-- One entry of `priority_claims`; only `priority_date` is read. -/
structure PriorityClaim where
  priority_date : String
deriving Repr, DecidableEq

/-- One entry of `claims`; the fields `validateClaimDependency` reads. -/
structure PatentClaim where
  claim_number : Nat
  claim_type : String
  claim_text : String
deriving Repr, DecidableEq

/-- One entry of `drawings`.  `drawing_number` is a JS number whose zero
value is falsy; a missing or empty-string field is `none` / `""`. -/
structure Drawing where
  drawing_number : Option Nat
  description : Option String
  file_reference : Option String
deriving Repr, DecidableEq

/-- The `classification` object; only `.ipc` is read. -/
structure Classification where
  ipc : Option (List String)
deriving Repr, DecidableEq

/-- The `specification` object; only `.description` is read. -/
structure Specification where
  description : Option String
deriving Repr, DecidableEq

/-- The fields of a parsed application object that the validator reads.
`Option` marks fields the JS code tests for presence/truthiness; for
string fields the empty string is additionally falsy, which the
embedded checks test explicitly.  `sequence_listing` is reduced to its
truthiness. -/
structure ApplicationData where
  filing_date : Option String
  priority_claims : Option (List PriorityClaim)
  claims : Option (List PatentClaim)
  application_number : Option String
  classification : Option Classification
  language : Option String
  drawings : Option (List Drawing)
  specification : Option Specification
  title : Option String
  abstract : Option String
  sequence_listing : Bool
deriving Repr, DecidableEq

/-- An application object with every optional field absent. -/
def emptyApplication : ApplicationData :=
  ⟨none, none, none, none, none, none, none, none, none, none, false⟩

namespace PatentValidator

/-- JS `>=` between two `Date` values: an invalid date (`NaN`, here
`none`) compares false. -/
def dateGe (a b : Option Int) : Bool :=
  match a, b with
  | some x, some y => decide (x ≥ y)
  | _, _ => false

/-- `validateClaimDependency` from `src/checks/patent-validator.js`:
per claim, a dependent claim must match the claim-reference regex and a
multiple-dependent claim the multiple-reference regex. -/
def validateClaimDependency (claims : List PatentClaim) : List String :=
  (claims.map fun cl =>
    (if cl.claim_type == "dependent" && !hasClaimReference cl.claim_text then
      ["Dependent claim " ++ toString cl.claim_number ++ " must reference another claim"]
     else []) ++
    (if cl.claim_type == "multiple_dependent" && !isValidMultipleDependentReference cl.claim_text then
      ["Multiple dependent claim " ++ toString cl.claim_number ++ " has invalid reference format"]
     else [])).flatten

/-- `validateIPCClassification`: every code must match the IPC pattern. -/
def validateIPCClassification (ipcCodes : List String) : List String :=
  (ipcCodes.filter (fun code => !ipcMatches code)).map
    (fun code => "Invalid IPC classification format: " ++ code ++ ". Expected format: A01B 1/00")

/-- `validateFormatRequirements`: specification-description, title and
abstract length checks, in source order. -/
def validateFormatRequirements (data : ApplicationData) : List String :=
  (match data.specification with
   | some sp =>
     match sp.description with
     | some ds =>
       if ds != "" && decide (ds.length < 500) then
         ["Specification description must contain sufficient detail (minimum 500 characters)"]
       else []
     | none => []
   | none => []) ++
  (match data.title with
   | some t =>
     if t != "" && decide (t.length < 10) then
       ["Title must be descriptive (minimum 10 characters)"]
     else []
   | none => []) ++
  (match data.abstract with
   | some a =>
     if a != "" then
       (if decide (a.length > 1000) then
         ["Abstract exceeds maximum length (1000 characters)"] else []) ++
       (if decide (a.length < 50) then
         ["Abstract too brief (minimum 50 characters)"] else [])
     else []
   | none => [])

/-- `validateDrawingRequirements`: each drawing needs a description of
at least 10 characters and a file reference; the label falls back to
`index + 1` when `drawing_number` is falsy. -/
def validateDrawingRequirements (drawings : List Drawing) : List String :=
  (drawings.enum.map fun p =>
    let label : String :=
      match p.2.drawing_number with
      | some n => if n ≠ 0 then toString n else toString (p.1 + 1)
      | none => toString (p.1 + 1)
    (if (match p.2.description with
         | some ds => ds == "" || decide (ds.length < 10)
         | none => true) then
      ["Drawing " ++ label ++ " requires adequate description"]
     else []) ++
    (if (match p.2.file_reference with
         | some fr => fr == ""
         | none => true) then
      ["Drawing " ++ label ++ " must have file reference"]
     else [])).flatten

/-- Keyword list of `hasBiotechnologyContent`. -/
def biotechKeywords : List String :=
  ["gene", "dna", "rna", "protein", "enzyme", "cell", "organism",
   "biotechnology", "bioengineering", "genetic engineering",
   "protein engineering", "immunology", "pharmaceutical"]

/-- `hasBiotechnologyContent`: false without a (truthy) specification
description; otherwise a keyword search over the lowercased text. -/
def hasBiotechnologyContent (data : ApplicationData) : Bool :=
  match data.specification with
  | none => false
  | some sp =>
    match sp.description with
    | none => false
    | some ds =>
      if ds == "" then false
      else biotechKeywords.any (fun kw => JsStr.containsSubL (JsStr.lowerList ds) kw)

/-- `generateSchemaRepairRecommendations`: one suggestion per AJV error
with keyword `required`, `type` or `format`. -/
def generateSchemaRepairRecommendations (schemaErrors : List AjvError) : List String :=
  (schemaErrors.map fun e =>
    (if e.keyword == "required" then
      ["Add missing required field: " ++ e.missingProperty] else []) ++
    (if e.keyword == "type" then
      ["Correct data type for " ++ e.instancePath ++ ": expected " ++ e.paramType] else []) ++
    (if e.keyword == "format" then
      ["Change format of " ++ e.instancePath ++ " to " ++ e.paramFormat] else [])).flatten

/-- `generateCnipaRecommendations`: keyed off substrings of the
accumulated warnings and errors. -/
def generateCnipaRecommendations (errors warnings : List String) : List String :=
  (if warnings.any (fun w => JsStr.containsSub w ("translation")) then
    ["Consider providing Chinese translation for foreign language content"] else []) ++
  (if warnings.any (fun w => JsStr.containsSub w ("sequence listing")) then
    ["Provide sequence listing in standard ST.25 format for biotechnology applications"] else []) ++
  (if errors.any (fun e => JsStr.containsSub e ("specification")) then
    ["Review CNIPA specification guidelines for proper format and content"] else [])

/-- `validateBusinessRules`, parameterized over the JS `Date` parser
(`none` = invalid date).  Collects, in source order: priority-date
errors, claim-dependency errors, application-number format and IPC
format errors.  The result has no `warnings` field and an always-empty
`recommendations` list, as in the source. -/
def validateBusinessRules (parseDate : String → Option Int)
    (applicationData : ApplicationData) : ValidationResult :=
  let priorityErrors : List String :=
    match applicationData.filing_date with
    | some fd =>
      if fd != "" then
        match applicationData.priority_claims with
        | some pcs =>
          let filingDate := parseDate fd
          (pcs.filter (fun p => dateGe (parseDate p.priority_date) filingDate)).map
            (fun p => "Priority date " ++ p.priority_date ++
                      " must be before filing date " ++ fd)
        | none => []
      else []
    | none => []
  let claimErrors : List String :=
    match applicationData.claims with
    | some cls => if decide (cls.length > 0) then validateClaimDependency cls else []
    | none => []
  let appNumErrors : List String :=
    match applicationData.application_number with
    | some an =>
      if an != "" && !isValidApplicationNumber an then
        ["Invalid CNIPA application number format: " ++ an]
      else []
    | none => []
  let ipcErrors : List String :=
    match applicationData.classification with
    | some c =>
      match c.ipc with
      | some codes => validateIPCClassification codes
      | none => []
    | none => []
  let errors := priorityErrors ++ claimErrors ++ appNumErrors ++ ipcErrors
  if decide (errors.length > 0) then
    { valid := false, errors := some errors, warnings := none,
      recommendations := some [] }
  else
    { valid := true, errors := some [], warnings := none,
      recommendations := some [] }

/-- `validateCnipaRequirements`: format errors, language warning,
drawing errors, biotech warning; `valid` iff no errors. -/
def validateCnipaRequirements (applicationData : ApplicationData) : ValidationResult :=
  let formatErrors := validateFormatRequirements applicationData
  let langWarnings : List String :=
    match applicationData.language with
    | some lang =>
      if lang != "" && !(["zh-CN", "en", "ja", "de", "fr"].contains lang) then
        if lang == "other" then
          ["Foreign language applications require Chinese translation"]
        else []
      else []
    | none => []
  let drawingErrors : List String :=
    match applicationData.drawings with
    | some drs => if decide (drs.length > 0) then validateDrawingRequirements drs else []
    | none => []
  let bioWarnings : List String :=
    if hasBiotechnologyContent applicationData && !applicationData.sequence_listing then
      ["Sequence listing is recommended for biotechnology applications"]
    else []
  let errors := formatErrors ++ drawingErrors
  let warnings := langWarnings ++ bioWarnings
  { valid := errors.isEmpty, errors := some errors, warnings := some warnings,
    recommendations := some (generateCnipaRecommendations errors warnings) }

/-- `validateSchema`, parameterized over the compiled AJV validator for
the `patent-application` schema (`none` = schema not registered, which
the source turns into its catch-branch result; an empty error list =
the data validated). -/
def validateSchema (getSchema : Option (ApplicationData → List AjvError))
    (data : ApplicationData) : ValidationResult :=
  match getSchema with
  | none =>
    { valid := false,
      errors := some ["Schema validation error: Patent application schema not found"],
      warnings := none, recommendations := some [] }
  | some validate =>
    let errs := validate data
    if errs.isEmpty then
      { valid := true, errors := some [], warnings := none, recommendations := some [] }
    else
      { valid := false,
        errors := some (errs.map fun e =>
          (if e.instancePath == "" then "root" else e.instancePath) ++ ": " ++ e.message),
        warnings := none,
        recommendations := some (generateSchemaRepairRecommendations errs) }

/-- `combineValidationResults`: fold over the results, and-ing `valid`
and appending each list, with a missing list (`result.errors || []`)
treated as empty. -/
def combineValidationResults (results : List ValidationResult) : ValidationResult :=
  results.foldl
    (fun combined result =>
      { valid := combined.valid && result.valid,
        errors := some (combined.errors.getD [] ++ result.errors.getD []),
        warnings := some (combined.warnings.getD [] ++ result.warnings.getD []),
        recommendations :=
          some (combined.recommendations.getD [] ++ result.recommendations.getD []) })
    { valid := true, errors := some [], warnings := some [], recommendations := some [] }

/-- The body of `validateApplication` with its three stage calls left as
parameters that may throw (in JS any awaited callee may reject): schema
stage first, early return if invalid; business stage next, early return
if invalid; then the CNIPA stage and `combineValidationResults`.  The
surrounding `try`/`catch` converts any thrown error into a result with
a single `Validation error: ...` entry. -/
def validateApplicationRun
    (schemaV businessV cnipaV : ApplicationData → Except JsErr ValidationResult)
    (applicationData : ApplicationData) : ValidationResult :=
  let run : Except JsErr ValidationResult := do
    let schemaValidation ← schemaV applicationData
    if !schemaValidation.valid then
      pure schemaValidation
    else do
      let businessValidation ← businessV applicationData
      if !businessValidation.valid then
        pure businessValidation
      else do
        let cnipaValidation ← cnipaV applicationData
        pure (combineValidationResults
          [schemaValidation, businessValidation, cnipaValidation])
  match run with
  | .ok r => r
  | .error error =>
    { valid := false, errors := some ["Validation error: " ++ error.message],
      warnings := none, recommendations := some [] }

/-- `validateApplication` with the concrete (non-throwing) embedded
stages, still parameterized over the external AJV validator and `Date`
parser. -/
def validateApplication (getSchema : Option (ApplicationData → List AjvError))
    (parseDate : String → Option Int) (applicationData : ApplicationData) :
    ValidationResult :=
  validateApplicationRun
    (fun d => .ok (validateSchema getSchema d))
    (fun d => .ok (validateBusinessRules parseDate d))
    (fun d => .ok (validateCnipaRequirements d))
    applicationData

/-- `validateJobCard` from `src/checks/patent-validator.js`: runs only
the AJV `job-card` schema check on its argument (which it never
inspects otherwise — the input type is generic), with the same result
shapes as `validateSchema`. -/
def validateJobCard {α : Type} (getSchema : Option (α → List AjvError))
    (jobCardData : α) : ValidationResult :=
  match getSchema with
  | none =>
    { valid := false,
      errors := some ["Job card validation error: Job card schema not found"],
      warnings := none, recommendations := some [] }
  | some validate =>
    let errs := validate jobCardData
    if errs.isEmpty then
      { valid := true, errors := some [], warnings := none, recommendations := some [] }
    else
      { valid := false,
        errors := some (errs.map fun e =>
          (if e.instancePath == "" then "root" else e.instancePath) ++ ": " ++ e.message),
        warnings := none,
        recommendations := some (generateSchemaRepairRecommendations errs) }

end PatentValidator

/-- One step object of a job card, with the fields the scripts read. -/
structure CliStep where
  id : String
  stepType : String
  next : Option (List String)
deriving Repr, DecidableEq

/-- A parsed job-card object; fields beyond `steps` (name, version,
performance, errorHandling) are only echoed to the console by the CLI
and play no role in its control flow, so they are not modelled. -/
structure JobCardData where
  steps : Option (List CliStep)
deriving Repr, DecidableEq

/-- The structural property the spec calls `DuplicateId`: some step id
occurs more than once in the card. -/
def hasDuplicateIds (card : JobCardData) : Bool :=
  decide ¬ ((card.steps.getD []).map (fun s => s.id)).Nodup

/-- The structural property the spec calls `DanglingReference`: some
`next` entry names no step of the card. -/
def hasDanglingReference (card : JobCardData) : Bool :=
  let steps := card.steps.getD []
  steps.any fun s =>
    (s.next.getD []).any fun n => !((steps.map (fun t => t.id)).contains n)

/-- The structural property complementary to the spec's `NoRoot`: the
card has a step no `next` list points at. -/
def hasRootStep (card : JobCardData) : Bool :=
  let steps := card.steps.getD []
  steps.any fun s => !(steps.any fun t => (t.next.getD []).contains s.id)

namespace JobCardCli

/-- The body of `validateJobCard` in `scripts/validate-jobcard.js`
after the job card has been read and schema-validated (the manager's
validation result is a parameter; console output is not modelled).
`.ok code` is the `process.exit` argument of a normal completion;
`.error e` is an exception thrown inside the `try` block, which the
outer `catch` turns into exit code 1.

The workflow-analysis block collects every id referenced from any
step's `next` into a `Set` (insertion order, deduplicated) and filters
out those naming an existing step.  When orphaned references remain the
source executes `warnings.push(...)` — but no variable `warnings` is
declared anywhere in the function, so that line throws
`ReferenceError: warnings is not defined`. -/
def validateJobCard (validationResult : ValidationResult)
    (jobCardData : JobCardData) : Except JsErr Nat :=
  match jobCardData.steps with
  | some steps =>
    if decide (steps.length > 0) then
      let stepIds := steps.map (fun s => s.id)
      let referencedSteps := ((steps.map (fun s => s.next.getD [])).flatten).eraseDups
      let orphanedSteps := referencedSteps.filter (fun sid => !(stepIds.contains sid))
      if decide (orphanedSteps.length > 0) then
        .error ⟨"warnings is not defined"⟩
      else
        .ok (if validationResult.valid then 0 else 1)
    else
      .ok (if validationResult.valid then 0 else 1)
  | none => .ok (if validationResult.valid then 0 else 1)

/-- The CLI's final exit code: a thrown error is caught by the outer
`catch`, which prints the failure and exits 1. -/
def validateJobCardExitCode (validationResult : ValidationResult)
    (jobCardData : JobCardData) : Nat :=
  match validateJobCard validationResult jobCardData with
  | .ok code => code
  | .error _ => 1

end JobCardCli

/-- The result object of an orchestration run as far as the CLI's exit
logic observes it; the remaining displayed properties (`duration`,
`stepsCompleted`, `errors`, ...) are read behind truthiness guards and
cannot affect control flow. -/
structure RunResult where
  status : String
deriving Repr, DecidableEq

namespace CnipaPatentSystem

/-- Node's `path.extname` for POSIX paths: the part of the basename
from its last `.`, or `""` when the basename has no dot, only a leading
dot, or is `..`. -/
def extname (p : String) : String :=
  let base := p.toList.foldl (fun acc c => if c = '/' then [] else acc ++ [c]) []
  if base = ['.', '.'] then ""
  else
    let dotIdxs := (base.enum.filter (fun q => q.2 = '.')).map (fun q => q.1)
    match dotIdxs.getLast? with
    | none => ""
    | some 0 => ""
    | some i => String.mk (base.drop i)

/-- JS `toLowerCase` as a `String` endomorphism (ASCII). -/
def lowerStr (s : String) : String :=
  String.mk (JsStr.lowerList s)

/-- `loadApplicationData` from `src/orchestrator/index.js`: reads the
file, lowercases the path's extension and dispatches on it; the three
parsers (`JSON.parse`, the `xml2js`-backed `parseXML`, `js-yaml`'s
`load`) are external collaborators passed as parameters.  Any other
extension throws `Unsupported file format: <ext>`. -/
def loadApplicationData {α : Type} (readFile : String → String)
    (jsonParse xmlParse yamlLoad : String → Except JsErr α)
    (filePath : String) : Except JsErr α :=
  let content := readFile filePath
  let ext := lowerStr (extname filePath)
  if ext == ".json" then jsonParse content
  else if ext == ".xml" then xmlParse content
  else if ext == ".yaml" || ext == ".yml" then yamlLoad content
  else .error ⟨"Unsupported file format: " ++ ext⟩

/-- `CnipaPatentSystem.processApplication`: loads the file, validates
it with the embedded `PatentValidator.validateApplication`, and only
then calls the orchestrator (a parameter).  On a validation failure it
handles the failure (file moves and report writes, not modelled) and
returns without a value (`.ok none` = JS `return;`, i.e. `undefined`);
a thrown error is re-thrown by the `catch` block after
`handleProcessingFailure`. -/
def processApplication (readFile : String → String)
    (jsonParse xmlParse yamlLoad : String → Except JsErr ApplicationData)
    (getSchema : Option (ApplicationData → List PatentValidator.AjvError))
    (parseDate : String → Option Int)
    (orch : ApplicationData → Except JsErr RunResult)
    (filePath : String) : Except JsErr (Option RunResult) :=
  match loadApplicationData readFile jsonParse xmlParse yamlLoad filePath with
  | .error e => .error e
  | .ok applicationData =>
    let validationResult :=
      PatentValidator.validateApplication getSchema parseDate applicationData
    if !validationResult.valid then
      .ok none
    else
      match orch applicationData with
      | .error e => .error e
      | .ok result => .ok (some result)

end CnipaPatentSystem

namespace OrchestrateCli

/-- The exit code of `orchestratePatent` in
`scripts/orchestrate-patent.js`.  A missing patent file exits 1
immediately.  `system.start()` and `system.processApplication` may
throw (caught, then exit 1).  When `processApplication` returns
`undefined` (its validation-failure path), the display line
`result.status` dereferences `undefined` and the thrown TypeError is
caught, exiting 1.  When it returns a result object, the CLI displays
it and reaches `process.exit(0)` unconditionally — the result's
`status` value is never consulted for the exit code. -/
def orchestratePatent (fileExists : Bool) (startResult : Except JsErr Unit)
    (processResult : Except JsErr (Option RunResult)) : Nat :=
  if !fileExists then 1
  else
    match startResult with
    | .error _ => 1
    | .ok _ =>
      match processResult with
      | .error _ => 1
      | .ok none => 1
      | .ok (some _) => 0

end OrchestrateCli

/-- A step as the spec's dependency resolver sees it: an id and its
`next` successors. -/
structure SpecStep where
  id : String
  next : List String
deriving Repr, DecidableEq

/-- A job card reduced to what the spec's resolver consumes. -/
structure SpecJobCard where
  steps : List SpecStep
deriving Repr, DecidableEq

/-- The spec's `CycleError{involvedSteps}`. -/
structure CycleError where
  involvedSteps : List String
deriving Repr, DecidableEq

namespace SpecModel

/-- Modelled from the spec: the repository's dependency resolver
(`src/core/orchestrator.js`) is not among the provided sources; §4.2
specifies it as building predecessor sets by inverting `next` and
running Kahn's algorithm, failing with a `CycleError` over the
undrained remainder. -/
def stepIds (c : SpecJobCard) : List String :=
  c.steps.map (fun s => s.id)

/-- Predecessor set of `v`: ids of steps whose `next` mentions `v`
(§3: "a mapping from step id to its predecessor set, computed by
inverting `next`"). -/
def preds (c : SpecJobCard) (v : String) : List String :=
  (c.steps.filter (fun s => s.next.contains v)).map (fun s => s.id)

/-- One Kahn layer at a time: remove every node all of whose
predecessors are already removed; stop when no node is removable.
Returns the removal order and the undrained remainder. -/
def kahnAux (c : SpecJobCard) : Nat → List String → List String × List String
  | 0, remaining => ([], remaining)
  | fuel + 1, remaining =>
    let ready := remaining.filter (fun v => (preds c v).all (fun p => !remaining.contains p))
    if ready.isEmpty then ([], remaining)
    else
      let rest := kahnAux c fuel (remaining.filter (fun v => !ready.contains v))
      (ready ++ rest.1, rest.2)

/-- Modelled from the spec (§4.2): `resolve(JobCard) -> ExecutionGraph |
CycleError`; on success the deterministic topological order, on failure
the `CycleError` listing the nodes Kahn's algorithm could not drain. -/
def resolve (c : SpecJobCard) : Except CycleError (List String) :=
  let r := kahnAux c c.steps.length (stepIds c)
  if r.2.isEmpty then .ok r.1 else .error ⟨r.2⟩

/-- Modelled from the spec (§4.4, sequential case): the scheduler runs
the resolved order step by step through the external handler; a
`CycleError` from `resolve` aborts before any handler invocation. -/
def runCard (handler : String → Bool) (c : SpecJobCard) :
    Except CycleError (List (String × Bool)) :=
  match resolve c with
  | .error e => .error e
  | .ok order => .ok (order.map (fun v => (v, handler v)))

/-- `l` is a cycle of the derived dependency graph: nonempty, and each
element has an edge to the next, wrapping around (`u ∈ preds c v` is
the edge `u → v`). -/
def IsCycle (c : SpecJobCard) (l : List String) : Prop :=
  match l with
  | [] => False
  | h :: t => List.Chain (fun u v => u ∈ preds c v) h (t ++ [h])

/-- Boolean edge chain check: `chainB c a xs` iff consecutive elements
of `a :: xs` are joined by edges of the derived graph. -/
def chainB (c : SpecJobCard) : String → List String → Bool
  | _, [] => true
  | a, b :: rest => (preds c b).contains a && chainB c b rest

theorem chainB_iff (c : SpecJobCard) :
    ∀ (a : String) (xs : List String),
      chainB c a xs = true ↔ List.Chain (fun u v => u ∈ preds c v) a xs := by
  intro a xs
  induction xs generalizing a with
  | nil => simp [chainB]
  | cons b rest ih =>
    simp [chainB, List.chain_cons, ih, List.elem_iff]

instance (c : SpecJobCard) (l : List String) : Decidable (IsCycle c l) :=
  match l with
  | [] => isFalse (fun h => h)
  | h :: t => decidable_of_iff (chainB c h (t ++ [h]) = true) (chainB_iff c h (t ++ [h]))

end SpecModel


/-!
Concrete collaborator instances and inputs used by the witnesses and
counterexamples below.
-/

/-- An AJV validator that rejects every input with one `required`
error. -/
def schemaFail : Option (ApplicationData → List PatentValidator.AjvError) :=
  some (fun _ => [⟨"", "must have required property title", "required", "title", "", ""⟩])

/-- An AJV validator that accepts every input. -/
def schemaPass : Option (ApplicationData → List PatentValidator.AjvError) :=
  some (fun _ => [])

/-- A `Date` parser on which every string is an invalid date. -/
def noDate : String → Option Int := fun _ => none

/-- An application whose `application_number` fails the CNIPA format
check (a business-rule fault). -/
def appWithBadNumber : ApplicationData :=
  { emptyApplication with application_number := some ("123") }

/-- A file reader returning empty contents. -/
def readEmpty : String → String := fun _ => ""

/-- A parser collaborator that always yields `appWithBadNumber`. -/
def parseToBadApp : String → Except JsErr ApplicationData :=
  fun _ => .ok appWithBadNumber

/-- An orchestrator collaborator that always completes. -/
def orchCompleted : ApplicationData → Except JsErr RunResult :=
  fun _ => .ok ⟨"completed"⟩

/-!
Helper lemmas shared by the claim theorems.
-/

/-- Closed form of the fold inside `combineValidationResults`, for any
accumulator whose list fields are present. -/
theorem combineValidationResults_foldl (results : List ValidationResult)
    (b : Bool) (es ws cs : List String) :
    results.foldl
      (fun (combined result : ValidationResult) =>
        ({ valid := combined.valid && result.valid,
           errors := some (combined.errors.getD [] ++ result.errors.getD []),
           warnings := some (combined.warnings.getD [] ++ result.warnings.getD []),
           recommendations :=
             some (combined.recommendations.getD [] ++ result.recommendations.getD []) } :
          ValidationResult))
      { valid := b, errors := some es, warnings := some ws, recommendations := some cs } =
    ({ valid := b && results.all (fun r => r.valid),
       errors := some (es ++ (results.map (fun r => r.errors.getD [])).flatten),
       warnings := some (ws ++ (results.map (fun r => r.warnings.getD [])).flatten),
       recommendations :=
         some (cs ++ (results.map (fun r => r.recommendations.getD [])).flatten) } :
      ValidationResult) := by
  induction results generalizing b es ws cs with
  | nil => simp
  | cons r rs ih =>
    simp only [List.foldl_cons, List.all_cons, List.map_cons, List.flatten_cons]
    rw [ih]
    simp [Bool.and_assoc, List.append_assoc]

/-- `validateApplication` in closed form: the schema stage gates the
business stage, which gates the CNIPA stage and the combination. -/
theorem validateApplication_eq
    (getSchema : Option (ApplicationData → List PatentValidator.AjvError))
    (parseDate : String → Option Int) (d : ApplicationData) :
    PatentValidator.validateApplication getSchema parseDate d =
      (if (PatentValidator.validateSchema getSchema d).valid = false then
        PatentValidator.validateSchema getSchema d
      else if (PatentValidator.validateBusinessRules parseDate d).valid = false then
        PatentValidator.validateBusinessRules parseDate d
      else
        PatentValidator.combineValidationResults
          [PatentValidator.validateSchema getSchema d,
           PatentValidator.validateBusinessRules parseDate d,
           PatentValidator.validateCnipaRequirements d]) := by
  unfold PatentValidator.validateApplication PatentValidator.validateApplicationRun
  cases hs : (PatentValidator.validateSchema getSchema d).valid <;>
    cases hb : (PatentValidator.validateBusinessRules parseDate d).valid <;>
      simp [hs, hb, Bind.bind, Except.bind, Pure.pure, Except.pure]

/-- Every result `validateSchema` produces carries an `errors` list. -/
theorem validateSchema_errors_isSome
    (getSchema : Option (ApplicationData → List PatentValidator.AjvError))
    (d : ApplicationData) :
    (PatentValidator.validateSchema getSchema d).errors.isSome = true := by
  unfold PatentValidator.validateSchema
  cases getSchema with
  | none => rfl
  | some validate =>
    dsimp only
    split <;> rfl

/-- Every result `validateBusinessRules` produces carries an `errors`
list. -/
theorem validateBusinessRules_errors_isSome (parseDate : String → Option Int)
    (d : ApplicationData) :
    (PatentValidator.validateBusinessRules parseDate d).errors.isSome = true := by
  unfold PatentValidator.validateBusinessRules
  dsimp only
  split <;> rfl

/-- Every result `combineValidationResults` produces carries an
`errors` list. -/
theorem combineValidationResults_errors_isSome (results : List ValidationResult) :
    (PatentValidator.combineValidationResults results).errors.isSome = true := by
  unfold PatentValidator.combineValidationResults
  rw [combineValidationResults_foldl]
  rfl

/-- C8: `combineValidationResults` returns a result whose `valid` flag
is the conjunction of the inputs' `valid` flags, and whose `errors`,
`warnings` and `recommendations` lists are the concatenations, in input
order, of the corresponding input lists, a missing list counting as
empty. -/
theorem C8_combineValidationResults_spec (results : List ValidationResult) :
    (PatentValidator.combineValidationResults results).valid =
      results.all (fun r => r.valid) ∧
    (PatentValidator.combineValidationResults results).errors =
      some ((results.map (fun r => r.errors.getD [])).flatten) ∧
    (PatentValidator.combineValidationResults results).warnings =
      some ((results.map (fun r => r.warnings.getD [])).flatten) ∧
    (PatentValidator.combineValidationResults results).recommendations =
      some ((results.map (fun r => r.recommendations.getD [])).flatten) := by
  unfold PatentValidator.combineValidationResults
  rw [combineValidationResults_foldl]
  simp

/-- C10: `loadApplicationData` throws `Unsupported file format: <ext>`
whenever the lowercased extension of the path is none of `.json`,
`.xml`, `.yaml`, `.yml`, and for a `.json` path returns exactly
`JSON.parse` of the file's contents. -/
theorem C10_loadApplicationData_dispatch (readFile : String → String)
    (jsonParse xmlParse yamlLoad : String → Except JsErr ApplicationData)
    (filePath : String) :
    (CnipaPatentSystem.lowerStr (CnipaPatentSystem.extname filePath) ∉
        ([".json", ".xml", ".yaml", ".yml"] : List String) →
      CnipaPatentSystem.loadApplicationData readFile jsonParse xmlParse yamlLoad filePath =
        .error ⟨"Unsupported file format: " ++
          CnipaPatentSystem.lowerStr (CnipaPatentSystem.extname filePath)⟩) ∧
    (CnipaPatentSystem.lowerStr (CnipaPatentSystem.extname filePath) = ".json" →
      CnipaPatentSystem.loadApplicationData readFile jsonParse xmlParse yamlLoad filePath =
        jsonParse (readFile filePath)) := by
  constructor
  · intro h
    simp only [List.mem_cons, List.not_mem_nil, or_false, not_or] at h
    obtain ⟨h1, h2, h3, h4⟩ := h
    unfold CnipaPatentSystem.loadApplicationData
    simp [h1, h2, h3, h4]
  · intro h
    unfold CnipaPatentSystem.loadApplicationData
    simp [h]

/-- Witness for C10 at concrete paths: `draft.TXT` is rejected with the
lowercased extension in the message, and `d.json` defers to the JSON
parser on the file's contents. -/
theorem C10_loadApplicationData_dispatch_witness :
    (CnipaPatentSystem.lowerStr (CnipaPatentSystem.extname ("draft.TXT")) ∉
        ([".json", ".xml", ".yaml", ".yml"] : List String)) ∧
    CnipaPatentSystem.loadApplicationData readEmpty parseToBadApp parseToBadApp
      parseToBadApp ("draft.TXT") = .error ⟨"Unsupported file format: .txt"⟩ ∧
    CnipaPatentSystem.loadApplicationData readEmpty parseToBadApp parseToBadApp
      parseToBadApp ("d.json") = parseToBadApp (readEmpty ("d.json")) := by
  refine ⟨by decide, ?_, ?_⟩
  · rw [(C10_loadApplicationData_dispatch readEmpty parseToBadApp parseToBadApp
      parseToBadApp ("draft.TXT")).1 (by decide)]
    decide
  · exact (C10_loadApplicationData_dispatch readEmpty parseToBadApp parseToBadApp
      parseToBadApp ("d.json")).2 (by decide)

/-- C1 counterexample: an application with two distinct faults — a
schema fault (missing `title`, reported by the AJV collaborator) and a
business-rule fault (malformed application number) — validates to the
schema stage's result alone; the business-rule error that
`validateBusinessRules` itself reports on the same input is absent from
the final error list, so validation is not exhaustive across stages. -/
theorem C1_counterexample :
    (PatentValidator.validateSchema schemaFail appWithBadNumber).valid = false ∧
    (PatentValidator.validateBusinessRules noDate appWithBadNumber).errors =
      some ["Invalid CNIPA application number format: 123"] ∧
    PatentValidator.validateApplication schemaFail noDate appWithBadNumber =
      { valid := false, errors := some ["root: must have required property title"],
        warnings := none,
        recommendations := some ["Add missing required field: title"] } ∧
    "Invalid CNIPA application number format: 123" ∉
      (PatentValidator.validateApplication schemaFail noDate appWithBadNumber).errors.getD []
    := by decide

/-- C1 (amended): validation is exhaustive only within a stage; across
stages `validateApplication` short-circuits — a schema-invalid input
yields exactly the schema stage's result, a business-invalid input
exactly the business stage's result, and only when both pass are the
three stages' lists concatenated by `combineValidationResults`. -/
theorem C1_stage_gating
    (getSchema : Option (ApplicationData → List PatentValidator.AjvError))
    (parseDate : String → Option Int) (d : ApplicationData) :
    ((PatentValidator.validateSchema getSchema d).valid = false →
      PatentValidator.validateApplication getSchema parseDate d =
        PatentValidator.validateSchema getSchema d) ∧
    ((PatentValidator.validateSchema getSchema d).valid = true →
      (PatentValidator.validateBusinessRules parseDate d).valid = false →
      PatentValidator.validateApplication getSchema parseDate d =
        PatentValidator.validateBusinessRules parseDate d) ∧
    ((PatentValidator.validateSchema getSchema d).valid = true →
      (PatentValidator.validateBusinessRules parseDate d).valid = true →
      PatentValidator.validateApplication getSchema parseDate d =
        PatentValidator.combineValidationResults
          [PatentValidator.validateSchema getSchema d,
           PatentValidator.validateBusinessRules parseDate d,
           PatentValidator.validateCnipaRequirements d]) := by
  refine ⟨fun h1 => ?_, fun h1 h2 => ?_, fun h1 h2 => ?_⟩
  · rw [validateApplication_eq, if_pos h1]
  · rw [validateApplication_eq, if_neg (by simp [h1]), if_pos h2]
  · rw [validateApplication_eq, if_neg (by simp [h1]), if_neg (by simp [h2])]

/-- Witness for C1 (amended) at the concrete two-fault input: the
schema stage fails there and the final result is exactly the schema
stage's result. -/
theorem C1_stage_gating_witness :
    (PatentValidator.validateSchema schemaFail appWithBadNumber).valid = false ∧
    PatentValidator.validateApplication schemaFail noDate appWithBadNumber =
      PatentValidator.validateSchema schemaFail appWithBadNumber :=
  ⟨by decide, (C1_stage_gating schemaFail noDate appWithBadNumber).1 (by decide)⟩

/-- C5: when the loaded input fails validation,
`CnipaPatentSystem.processApplication` returns (without a result)
before the orchestrator is consulted — the same `.ok none` for every
orchestrator collaborator, so no step can have been executed. -/
theorem C5_validation_failure_skips_orchestration (readFile : String → String)
    (jsonParse xmlParse yamlLoad : String → Except JsErr ApplicationData)
    (getSchema : Option (ApplicationData → List PatentValidator.AjvError))
    (parseDate : String → Option Int) (filePath : String) (d : ApplicationData)
    (hload : CnipaPatentSystem.loadApplicationData readFile jsonParse xmlParse
      yamlLoad filePath = .ok d)
    (hvalid : (PatentValidator.validateApplication getSchema parseDate d).valid = false) :
    ∀ orch, CnipaPatentSystem.processApplication readFile jsonParse xmlParse yamlLoad
      getSchema parseDate orch filePath = .ok none := by
  intro orch
  unfold CnipaPatentSystem.processApplication
  rw [hload]
  simp [hvalid]

/-- Witness for C5: the concrete invalid application is loaded, fails
validation, and processing returns `.ok none` under a concrete
orchestrator. -/
theorem C5_validation_failure_skips_orchestration_witness :
    CnipaPatentSystem.loadApplicationData readEmpty parseToBadApp parseToBadApp
      parseToBadApp ("d.json") = .ok appWithBadNumber ∧
    (PatentValidator.validateApplication schemaFail noDate appWithBadNumber).valid = false ∧
    CnipaPatentSystem.processApplication readEmpty parseToBadApp parseToBadApp
      parseToBadApp schemaFail noDate orchCompleted ("d.json") = .ok none :=
  ⟨by decide, by decide,
    C5_validation_failure_skips_orchestration readEmpty parseToBadApp parseToBadApp
      parseToBadApp schemaFail noDate ("d.json") appWithBadNumber (by decide) (by decide)
      orchCompleted⟩

/-- A stage computation that always throws. -/
def throwingStage : ApplicationData → Except JsErr ValidationResult :=
  fun _ => .error ⟨"boom"⟩

/-- A stage computation that always returns a passing result. -/
def passingStage : ApplicationData → Except JsErr ValidationResult :=
  fun _ => .ok { valid := true, errors := some [], warnings := none,
                 recommendations := some [] }

/-- C9: `validateApplication` is total at its public interface.  An
exception thrown by any of the three internal stages is converted by
the surrounding `catch` into a result with `valid = false` and the
single entry `Validation error: <message>`, never propagated; and with
the actual embedded stages the returned object always carries an
`errors` array. -/
theorem C9_validateApplication_total
    (schemaV businessV cnipaV : ApplicationData → Except JsErr ValidationResult)
    (getSchema : Option (ApplicationData → List PatentValidator.AjvError))
    (parseDate : String → Option Int) (d : ApplicationData) (e : JsErr)
    (s b : ValidationResult) :
    (schemaV d = .error e →
      PatentValidator.validateApplicationRun schemaV businessV cnipaV d =
        { valid := false, errors := some ["Validation error: " ++ e.message],
          warnings := none, recommendations := some [] }) ∧
    (schemaV d = .ok s → s.valid = true → businessV d = .error e →
      PatentValidator.validateApplicationRun schemaV businessV cnipaV d =
        { valid := false, errors := some ["Validation error: " ++ e.message],
          warnings := none, recommendations := some [] }) ∧
    (schemaV d = .ok s → s.valid = true → businessV d = .ok b → b.valid = true →
      cnipaV d = .error e →
      PatentValidator.validateApplicationRun schemaV businessV cnipaV d =
        { valid := false, errors := some ["Validation error: " ++ e.message],
          warnings := none, recommendations := some [] }) ∧
    (PatentValidator.validateApplication getSchema parseDate d).errors.isSome = true := by
  refine ⟨fun h1 => ?_, fun h1 h2 h3 => ?_, fun h1 h2 h3 h4 h5 => ?_, ?_⟩
  · unfold PatentValidator.validateApplicationRun
    simp [h1, Bind.bind, Except.bind]
  · unfold PatentValidator.validateApplicationRun
    simp [h1, h2, h3, Bind.bind, Except.bind]
  · unfold PatentValidator.validateApplicationRun
    simp [h1, h2, h3, h4, h5, Bind.bind, Except.bind, Pure.pure, Except.pure]
  · rw [validateApplication_eq]
    split
    · exact validateSchema_errors_isSome _ _
    · split
      · exact validateBusinessRules_errors_isSome _ _
      · exact combineValidationResults_errors_isSome _

/-- Witness for C9: a throwing schema stage is converted into the
`Validation error: boom` result, and a concrete full validation carries
an `errors` array. -/
theorem C9_validateApplication_total_witness :
    throwingStage emptyApplication = .error ⟨"boom"⟩ ∧
    PatentValidator.validateApplicationRun throwingStage passingStage passingStage
      emptyApplication =
      { valid := false, errors := some ["Validation error: boom"],
        warnings := none, recommendations := some [] } ∧
    (PatentValidator.validateApplication schemaPass noDate emptyApplication).errors.isSome
      = true := by
  refine ⟨rfl, ?_, ?_⟩
  · exact (C9_validateApplication_total throwingStage passingStage passingStage
      schemaPass noDate emptyApplication ⟨"boom"⟩
      ⟨true, none, none, none⟩ ⟨true, none, none, none⟩).1 rfl
  · exact (C9_validateApplication_total throwingStage passingStage passingStage
      schemaPass noDate emptyApplication ⟨"boom"⟩
      ⟨true, none, none, none⟩ ⟨true, none, none, none⟩).2.2.2

/-- C2 counterexample: the top-level `processApplication` neither
always avoids throwing nor always produces a report.  On a `.txt` input
the load error is re-thrown to the caller, and on an input that fails
validation the method returns JS `undefined` (here `.ok none`) — no
structured result object in either case. -/
theorem C2_counterexample :
    CnipaPatentSystem.processApplication readEmpty parseToBadApp parseToBadApp
      parseToBadApp schemaFail noDate orchCompleted ("draft.txt") =
      .error ⟨"Unsupported file format: .txt"⟩ ∧
    CnipaPatentSystem.processApplication readEmpty parseToBadApp parseToBadApp
      parseToBadApp schemaFail noDate orchCompleted ("draft.json") = .ok none
    := by decide

/-- C2 (amended): `processApplication` returns the orchestrator's
result only when loading and validation both succeed; a validation
failure yields no result object (`undefined`), and an error thrown by
loading or by the orchestrator is re-thrown to the caller after failure
handling. -/
theorem C2_processApplication_paths (readFile : String → String)
    (jsonParse xmlParse yamlLoad : String → Except JsErr ApplicationData)
    (getSchema : Option (ApplicationData → List PatentValidator.AjvError))
    (parseDate : String → Option Int)
    (orch : ApplicationData → Except JsErr RunResult) (filePath : String) :
    (∀ e, CnipaPatentSystem.loadApplicationData readFile jsonParse xmlParse yamlLoad
        filePath = .error e →
      CnipaPatentSystem.processApplication readFile jsonParse xmlParse yamlLoad
        getSchema parseDate orch filePath = .error e) ∧
    (∀ d, CnipaPatentSystem.loadApplicationData readFile jsonParse xmlParse yamlLoad
        filePath = .ok d →
      (PatentValidator.validateApplication getSchema parseDate d).valid = false →
      CnipaPatentSystem.processApplication readFile jsonParse xmlParse yamlLoad
        getSchema parseDate orch filePath = .ok none) ∧
    (∀ d e, CnipaPatentSystem.loadApplicationData readFile jsonParse xmlParse yamlLoad
        filePath = .ok d →
      (PatentValidator.validateApplication getSchema parseDate d).valid = true →
      orch d = .error e →
      CnipaPatentSystem.processApplication readFile jsonParse xmlParse yamlLoad
        getSchema parseDate orch filePath = .error e) ∧
    (∀ d r, CnipaPatentSystem.loadApplicationData readFile jsonParse xmlParse yamlLoad
        filePath = .ok d →
      (PatentValidator.validateApplication getSchema parseDate d).valid = true →
      orch d = .ok r →
      CnipaPatentSystem.processApplication readFile jsonParse xmlParse yamlLoad
        getSchema parseDate orch filePath = .ok (some r)) := by
  refine ⟨fun e h => ?_, fun d h hv => ?_, fun d e h hv ho => ?_, fun d r h hv ho => ?_⟩
  · unfold CnipaPatentSystem.processApplication
    rw [h]
  · unfold CnipaPatentSystem.processApplication
    rw [h]
    simp [hv]
  · unfold CnipaPatentSystem.processApplication
    rw [h]
    simp [hv, ho]
  · unfold CnipaPatentSystem.processApplication
    rw [h]
    simp [hv, ho]

/-- Witness for C2 (amended): the re-throw path at the concrete `.txt`
input. -/
theorem C2_processApplication_paths_witness :
    CnipaPatentSystem.loadApplicationData readEmpty parseToBadApp parseToBadApp
      parseToBadApp ("draft.txt") = .error ⟨"Unsupported file format: .txt"⟩ ∧
    CnipaPatentSystem.processApplication readEmpty parseToBadApp parseToBadApp
      parseToBadApp schemaFail noDate orchCompleted ("draft.txt") =
      .error ⟨"Unsupported file format: .txt"⟩ :=
  ⟨by decide,
    (C2_processApplication_paths readEmpty parseToBadApp parseToBadApp parseToBadApp
      schemaFail noDate orchCompleted ("draft.txt")).1 _ (by decide)⟩

/-- C6 counterexample: a run whose result object carries status
`completed_with_errors` is returned without a throw, and the CLI still
exits 0 — the exit code is not `status == completed`. -/
theorem C6_counterexample :
    OrchestrateCli.orchestratePatent true (.ok ())
      (.ok (some ⟨"completed_with_errors"⟩)) = 0 ∧
    ("completed_with_errors" : String) ≠ "completed" := by
  refine ⟨rfl, by decide⟩

/-- C6 (amended): the CLI's exit code is 0 exactly when the system
starts and `processApplication` returns a result object without
throwing — the result's `status` plays no role; a missing file, a
thrown error, or the validation-failure path (which returns no result
object, making the display line throw) all exit 1. -/
theorem C6_exit_code (startResult : Except JsErr Unit)
    (processResult : Except JsErr (Option RunResult)) :
    (OrchestrateCli.orchestratePatent true startResult processResult = 0 ↔
      (startResult = .ok () ∧ ∃ r, processResult = .ok (some r))) ∧
    OrchestrateCli.orchestratePatent false startResult processResult = 1 := by
  constructor
  · cases startResult with
    | error e => simp [OrchestrateCli.orchestratePatent]
    | ok u =>
      cases u
      cases processResult with
      | error e => simp [OrchestrateCli.orchestratePatent]
      | ok o => cases o <;> simp [OrchestrateCli.orchestratePatent]
  · rfl

/-- Witness for C6 (amended) at concrete run outcomes: a returned
result object exits 0, a validation failure (no result object) exits
1. -/
theorem C6_exit_code_witness :
    OrchestrateCli.orchestratePatent true (.ok ()) (.ok (some ⟨"failed"⟩)) = 0 ∧
    OrchestrateCli.orchestratePatent true (.ok ()) (.ok none) = 1 :=
  ⟨((C6_exit_code (.ok ()) (.ok (some ⟨"failed"⟩))).1).mpr ⟨rfl, ⟨"failed"⟩, rfl⟩,
   by decide⟩

/-- C3: on a job card that passes schema validation but whose `next`
lists reference a step id that does not exist, the validation CLI does
not surface a warning: the undeclared-variable line
`warnings.push(...)` raises `ReferenceError: warnings is not defined`,
which the outer catch turns into the failure message and exit code 1.
The card below has one step `a` whose `next` references the missing
step `b`. -/
theorem C3_orphan_reference_crashes :
    JobCardCli.validateJobCard ⟨true, some [], some [], some []⟩
      ⟨some [⟨"a", "process", some ["b"]⟩]⟩ =
      .error ⟨"warnings is not defined"⟩ ∧
    JobCardCli.validateJobCardExitCode ⟨true, some [], some [], some []⟩
      ⟨some [⟨"a", "process", some ["b"]⟩]⟩ = 1 ∧
    JobCardCli.validateJobCard ⟨true, some [], some [], some []⟩
      ⟨some [⟨"a", "process", some ["a"]⟩]⟩ = .ok 0
    := by decide

/-- A job card with a duplicated step id, a dangling `next` reference
and no root step. -/
def structurallyBadCard : JobCardData :=
  ⟨some [⟨"a", "t", some ["a"]⟩, ⟨"a", "t", some ["zz"]⟩]⟩

/-- An AJV job-card validator that accepts every input. -/
def jobCardSchemaPass : Option (JobCardData → List PatentValidator.AjvError) :=
  some (fun _ => [])

/-- C4 counterexample: `PatentValidator.validateJobCard` accepts a card
with duplicate step ids, an unresolvable `next` reference and no root
step, as long as the schema collaborator accepts it — no structural
check is applied during job-card validation. -/
theorem C4_counterexample :
    hasDuplicateIds structurallyBadCard = true ∧
    hasDanglingReference structurallyBadCard = true ∧
    hasRootStep structurallyBadCard = false ∧
    PatentValidator.validateJobCard jobCardSchemaPass structurallyBadCard =
      { valid := true, errors := some [], warnings := none,
        recommendations := some [] }
    := by decide

/-- C4 (amended): job-card validation is schema validation only.  Its
outcome is a function of the schema collaborator's verdict alone — two
cards with the same schema verdict validate identically regardless of
their structure — and every schema-accepted card is declared valid with
no errors. -/
theorem C4_validateJobCard_schema_only {α β : Type}
    (validate : α → List PatentValidator.AjvError)
    (validateB : β → List PatentValidator.AjvError) (d : α) (dB : β) :
    ((validate d).isEmpty = true →
      PatentValidator.validateJobCard (some validate) d =
        { valid := true, errors := some [], warnings := none,
          recommendations := some [] }) ∧
    (validate d = validateB dB →
      PatentValidator.validateJobCard (some validate) d =
        PatentValidator.validateJobCard (some validateB) dB) := by
  constructor
  · intro h
    unfold PatentValidator.validateJobCard
    simp [h]
  · intro h
    simp only [PatentValidator.validateJobCard]
    rw [h]

/-- Witness for C4 (amended): the schema-accepted but structurally
broken card is declared valid. -/
theorem C4_validateJobCard_schema_only_witness :
    ((fun (_ : JobCardData) => ([] : List PatentValidator.AjvError))
        structurallyBadCard).isEmpty = true ∧
    PatentValidator.validateJobCard
      (some (fun (_ : JobCardData) => ([] : List PatentValidator.AjvError)))
      structurallyBadCard =
      { valid := true, errors := some [], warnings := none,
        recommendations := some [] } :=
  ⟨rfl, (C4_validateJobCard_schema_only
    (fun (_ : JobCardData) => ([] : List PatentValidator.AjvError))
    (fun (_ : JobCardData) => ([] : List PatentValidator.AjvError))
    structurallyBadCard structurallyBadCard).1 rfl⟩

/-- Every element of a chain's tail has an `R`-predecessor among the
chain's elements. -/
theorem chain_exists_pred {α : Type} {R : α → α → Prop} :
    ∀ {a : α} {as : List α}, List.Chain R a as → ∀ v ∈ as, ∃ u ∈ a :: as, R u v := by
  intro a as h
  induction h with
  | nil => simp
  | @cons a b l hab hbl ih =>
    intro v hv
    rcases List.mem_cons.mp hv with hvb | hvl
    · exact ⟨a, List.mem_cons_self _ _, hvb ▸ hab⟩
    · obtain ⟨u, hu, hR⟩ := ih v hvl
      exact ⟨u, List.mem_cons_of_mem _ hu, hR⟩

/-- Every element of a chain except the last has an `R`-successor among
the chain's tail. -/
theorem chain_exists_succ {α : Type} {R : α → α → Prop} :
    ∀ {a : α} {as : List α}, List.Chain R a as →
      ∀ v ∈ (a :: as).dropLast, ∃ w ∈ as, R v w := by
  intro a as h
  induction h with
  | nil => simp
  | @cons a b l hab hbl ih =>
    intro v hv
    rw [List.dropLast_cons₂] at hv
    rcases List.mem_cons.mp hv with hva | hvrest
    · exact ⟨b, List.mem_cons_self _ _, hva ▸ hab⟩
    · obtain ⟨w, hw, hR⟩ := ih v hvrest
      exact ⟨w, List.mem_cons_of_mem _ hw, hR⟩

/-- A predecessor is always the id of one of the card's steps. -/
theorem preds_subset_stepIds (c : SpecJobCard) (v u : String)
    (h : u ∈ SpecModel.preds c v) : u ∈ SpecModel.stepIds c := by
  simp only [SpecModel.preds, List.mem_map, List.mem_filter] at h
  obtain ⟨s, ⟨hs, _⟩, hid⟩ := h
  exact List.mem_map.mpr ⟨s, hs, hid⟩

/-- The facts a cycle provides: it is nonempty, each of its nodes has a
predecessor inside the cycle, and all its nodes are step ids. -/
theorem cycle_facts (c : SpecJobCard) (l : List String)
    (h : SpecModel.IsCycle c l) :
    l ≠ [] ∧ (∀ v ∈ l, ∃ u ∈ l, u ∈ SpecModel.preds c v) ∧
      ∀ v ∈ l, v ∈ SpecModel.stepIds c := by
  match l, h with
  | h₀ :: t, h =>
    have hchain : List.Chain (fun u v => u ∈ SpecModel.preds c v) h₀ (t ++ [h₀]) := h
    refine ⟨List.cons_ne_nil _ _, ?_, ?_⟩
    · intro v hv
      have hv' : v ∈ t ++ [h₀] := by
        rcases List.mem_cons.mp hv with hvh | hvt
        · exact List.mem_append_right _ (hvh ▸ List.mem_singleton_self _)
        · exact List.mem_append_left _ hvt
      obtain ⟨u, hu, hR⟩ := chain_exists_pred hchain v hv'
      refine ⟨u, ?_, hR⟩
      rcases List.mem_cons.mp hu with huh | hut
      · exact huh ▸ List.mem_cons_self _ _
      · rcases List.mem_append.mp hut with hul | huh'
        · exact List.mem_cons_of_mem _ hul
        · exact (List.mem_singleton.mp huh') ▸ List.mem_cons_self _ _
    · intro v hv
      have hsrc : v ∈ (h₀ :: (t ++ [h₀])).dropLast := by
        rw [List.dropLast_cons_of_ne_nil (by simp), List.dropLast_concat]
        exact hv
      obtain ⟨w, _, hR⟩ := chain_exists_succ hchain v hsrc
      exact preds_subset_stepIds c w v hR

/-- Nodes of a cycle are never drained by the layered Kahn iteration:
each still has a predecessor among the remaining nodes, so it is never
ready. -/
theorem kahn_cycle_persists (c : SpecJobCard) (l : List String)
    (H : ∀ v ∈ l, ∃ u ∈ l, u ∈ SpecModel.preds c v) :
    ∀ (fuel : Nat) (remaining : List String), l ⊆ remaining →
      l ⊆ (SpecModel.kahnAux c fuel remaining).2 := by
  intro fuel
  induction fuel with
  | zero =>
    intro remaining hsub
    simpa [SpecModel.kahnAux] using hsub
  | succ n ih =>
    intro remaining hsub
    unfold SpecModel.kahnAux
    dsimp only
    split
    · exact hsub
    · intro v hv
      exact ih _ (fun w hw => by
        obtain ⟨u, hul, hupred⟩ := H w hw
        have hwrem : w ∈ remaining := hsub hw
        have hurem : u ∈ remaining := hsub hul
        rw [List.mem_filter]
        refine ⟨hwrem, ?_⟩
        rw [Bool.not_eq_true', ← Bool.not_eq_true, List.elem_iff]
        intro hwready
        rw [List.mem_filter, List.all_eq_true] at hwready
        have := hwready.2 u hupred
        rw [Bool.not_eq_true', ← Bool.not_eq_true, List.elem_iff] at this
        exact this hurem) hv

/-- C7: for every job card whose derived dependency graph contains a
cycle, `resolve` fails with a `CycleError` whose `involvedSteps` list
contains every step of that cycle, and the modelled run executes no
step — for every handler collaborator it returns the same `CycleError`
without a single handler invocation. -/
theorem C7_cycle_aborts_run (c : SpecJobCard) (l : List String)
    (hcyc : SpecModel.IsCycle c l) :
    ∃ ce : CycleError, SpecModel.resolve c = .error ce ∧
      (∀ v ∈ l, v ∈ ce.involvedSteps) ∧
      ∀ handler, SpecModel.runCard handler c = .error ce := by
  obtain ⟨hne, H, hsub⟩ := cycle_facts c l hcyc
  have hpersist :=
    kahn_cycle_persists c l H c.steps.length (SpecModel.stepIds c) (fun v hv => hsub v hv)
  have hr2ne : ¬ (SpecModel.kahnAux c c.steps.length (SpecModel.stepIds c)).2.isEmpty = true := by
    match l, hne with
    | v :: t, _ =>
      intro hempty
      rw [List.isEmpty_iff] at hempty
      have := hpersist (List.mem_cons_self v t)
      rw [hempty] at this
      exact List.not_mem_nil v this
  refine ⟨⟨(SpecModel.kahnAux c c.steps.length (SpecModel.stepIds c)).2⟩, ?_, ?_, ?_⟩
  · unfold SpecModel.resolve
    simp [hr2ne]
  · intro v hv
    exact hpersist hv
  · intro handler
    unfold SpecModel.runCard SpecModel.resolve
    simp [hr2ne]

/-- A job card whose steps `a` and `b` form a cycle (`c` is an
independent drainable step). -/
def cyclicCard : SpecJobCard :=
  ⟨[⟨"a", ["b"]⟩, ⟨"b", ["a"]⟩, ⟨"c", []⟩]⟩

/-- Witness for C7 at the concrete cyclic card: `["a", "b"]` is a cycle
there, resolution fails with a `CycleError` containing both, and no
handler is ever consulted. -/
theorem C7_cycle_aborts_run_witness :
    SpecModel.IsCycle cyclicCard ["a", "b"] ∧
    ∃ ce : CycleError, SpecModel.resolve cyclicCard = .error ce ∧
      (∀ v ∈ (["a", "b"] : List String), v ∈ ce.involvedSteps) ∧
      ∀ handler, SpecModel.runCard handler cyclicCard = .error ce :=
  ⟨by decide, C7_cycle_aborts_run cyclicCard ["a", "b"] (by decide)⟩
